import Mathlib

/-
Shallow embedding of src/imitation/regularization/__init__.py.

Numeric values are modelled as exact rationals. Tensors (network
parameters) are flat lists of rationals. Observable side effects
(backward passes, logger records, in-place parameter writes) are
modelled as an ordered event trace carried in the regularizer state.
Python exceptions (assert failures, ZeroDivisionError) are modelled
with Except.
-/

namespace Imitation

/-- A LossType value: either a plain Python float or a torch tensor.
A tensor carries its dimensionality and its scalar value; the scalar
value is meaningful when the dimension is zero (the only case in which
the code reads it). -/
inductive LossType where
  | float (x : ℚ)
  | tensor (dim : ℕ) (x : ℚ)
  deriving DecidableEq

/-- The check performed by the asserts in IntervalParamScaler.__call__:
isinstance(loss, float) or loss.dim() == 0. -/
def LossType.isScalar : LossType → Bool
  | .float _ => true
  | .tensor dim _ => dim == 0

/-- The numeric value of a scalar loss. -/
def LossType.value : LossType → ℚ
  | .float x => x
  | .tensor _ x => x

/-- Python exceptions that the regularization code can raise. -/
inductive RegError where
  | assertionError
  | zeroDivisionError
  deriving DecidableEq

/-- IntervalParamScaler: immutable configuration set in __init__. -/
structure IntervalParamScaler where
  scaling_factor : ℚ
  tolerable_interval : ℚ × ℚ
  deriving DecidableEq

/-- IntervalParamScaler.__call__. Mirrors the source: first assert that
val_loss is scalar, then that train_loss is scalar, then compute
val_loss / train_loss and compare it with the interval bounds. A zero
divisor is mapped to zeroDivisionError, the exception Python raises for
float operands (torch's non-finite quotients for zero tensor divisors
fall outside the exact-rational model and are mapped to the same error). -/
def IntervalParamScaler.call (s : IntervalParamScaler) (lambda_ : ℚ)
    (train_loss val_loss : LossType) : Except RegError ℚ :=
  if !val_loss.isScalar then .error .assertionError
  else if !train_loss.isScalar then .error .assertionError
  else if train_loss.value = 0 then .error .zeroDivisionError
  else
    let val_to_train_ratio := val_loss.value / train_loss.value
    if val_to_train_ratio > s.tolerable_interval.2 then
      .ok (lambda_ * (1 + s.scaling_factor))
    else if val_to_train_ratio < s.tolerable_interval.1 then
      .ok (lambda_ * (1 - s.scaling_factor))
    else .ok lambda_

/-- ConstantParamScaler.__call__: deletes both losses and returns the
lambda unchanged; it can never raise. -/
def ConstantParamScaler.call (lambda_ : ℚ)
    (train_loss val_loss : LossType) : Except RegError ℚ :=
  .ok lambda_

/-- A LambdaUpdater: one of the two scalers shipped with the module, or
an arbitrary user-supplied callable matching the protocol. -/
inductive LambdaUpdater where
  | interval (s : IntervalParamScaler)
  | constant
  | custom (f : ℚ → LossType → LossType → Except RegError ℚ)

/-- Invoking a LambdaUpdater with (lambda_, train_loss, val_loss). -/
def LambdaUpdater.call : LambdaUpdater → ℚ → LossType → LossType → Except RegError ℚ
  | .interval s, l, t, v => s.call l t v
  | .constant, l, t, v => ConstantParamScaler.call l t v
  | .custom f, l, t, v => f l t v

/-- The isinstance(self.lambda_updater, ConstantParamScaler) test used
by Regularizer.update_params: a type-identity check, so a custom
callable that happens to behave like the constant scaler is not
recognized. -/
def LambdaUpdater.isConstant : LambdaUpdater → Bool
  | .constant => true
  | _ => false

/-- A network parameter tensor, flattened to its list of entries. -/
abbrev Param := List ℚ

/-- One optimizer parameter group: a learning rate and its parameters. -/
structure ParamGroup where
  lr : ℚ
  params : List Param
  deriving DecidableEq

/-- The optimizer abstraction: an ordered sequence of parameter groups. -/
structure Optimizer where
  param_groups : List ParamGroup
  deriving DecidableEq

/-- The two logger keys the module records under. -/
inductive LogKey where
  | regularization_lambda
  | regularized_loss
  deriving DecidableEq

/-- An observable side effect: a backward pass on a scalar loss value, a
logger.record call, or an in-place write to a parameter tensor. -/
inductive Event where
  | backward (v : ℚ)
  | logRecord (k : LogKey) (v : ℚ)
  | paramWrite (oldVal newVal : Param)
  deriving DecidableEq

/-- Whether an event is a logger record. -/
def Event.isLogRecord : Event → Bool
  | .logRecord _ _ => true
  | _ => false

/-- The mutable state of a Regularizer instance, together with the
ordered trace of observable effects since construction. -/
structure RegState where
  optimizer : Optimizer
  lambda_ : ℚ
  lambda_updater : LambdaUpdater
  trace : List Event

/-- Regularizer.__init__: bind the optimizer, lambda and updater, and
immediately record the lambda under regularization_lambda. -/
def Regularizer.init (optimizer : Optimizer) (initial_lambda : ℚ)
    (lambda_updater : LambdaUpdater) : RegState :=
  { optimizer := optimizer
    lambda_ := initial_lambda
    lambda_updater := lambda_updater
    trace := [.logRecord .regularization_lambda initial_lambda] }

/-- Regularizer.update_params: when the updater is not a
ConstantParamScaler, call it, assign the result to lambda_ and record
it; otherwise do nothing. The strategy call is evaluated before the
assignment and the record, so a raised exception leaves the state
untouched and propagates (the first component). -/
def Regularizer.update_params (st : RegState) (train_loss val_loss : LossType) :
    Except RegError Unit × RegState :=
  if st.lambda_updater.isConstant then (.ok (), st)
  else
    match st.lambda_updater.call st.lambda_ train_loss val_loss with
    | .error e => (.error e, st)
    | .ok newLambda =>
        (.ok (),
         { st with
             lambda_ := newLambda
             trace := st.trace ++ [.logRecord .regularization_lambda newLambda] })

/-- LossRegularizer.regularize, parametrized by the subclass's
_regularize_loss implementation: add the penalty to the loss, run
backward on the combined value, record it under regularized_loss, and
return it. -/
def LossRegularizer.regularize (regularizeLossFn : RegState → ℚ → ℚ)
    (st : RegState) (loss : ℚ) : Option ℚ × RegState :=
  let regularized_loss := loss + regularizeLossFn st loss
  (some regularized_loss,
   { st with
       trace := st.trace ++
         [.backward regularized_loss,
          .logRecord .regularized_loss regularized_loss] })

/-- Elementwise in-place tensor addition, th.add(param.data, delta). -/
def tensorAdd (xs ys : Param) : Param :=
  List.zipWith (fun a b => a + b) xs ys

/-- WeightRegularizer.regularize, parametrized by the subclass's
_regularize_weight implementation (which receives self.lambda_, the
weight and its group): run backward on the original loss, then add the
per-weight delta to every parameter of every group, in order. The
function has no return statement, hence returns None. -/
def WeightRegularizer.regularize (regularizeWeightFn : ℚ → Param → ParamGroup → Param)
    (st : RegState) (loss : ℚ) : Option ℚ × RegState :=
  let writes := (st.optimizer.param_groups.map (fun group =>
      group.params.map (fun param =>
        Event.paramWrite param
          (tensorAdd param (regularizeWeightFn st.lambda_ param group))))).flatten
  let newGroups := st.optimizer.param_groups.map (fun group =>
      { group with
          params := group.params.map (fun param =>
            tensorAdd param (regularizeWeightFn st.lambda_ param group)) })
  (none,
   { st with
       optimizer := { param_groups := newGroups }
       trace := st.trace ++ [.backward loss] ++ writes })

/-- The exact value of th.linalg.vector_norm(x, ord=p).pow(p) for a
natural p at least 1: raising the Lp norm (sum of p-th powers of
absolute entries, p-th root) to the p-th power yields the sum of the
p-th powers of the absolute entries. -/
def vectorNormPow (p : ℕ) (xs : Param) : ℚ :=
  (xs.map (fun x => |x| ^ p)).sum

/-- An LpRegularizer: a Regularizer together with the norm order p. -/
structure LpRegularizer extends RegState where
  p : ℕ

/-- LpRegularizer._regularize_loss: deletes the loss, then accumulates
penalty += vector_norm(param.data, ord=p).pow(p) over every parameter
of every group, and returns lambda_ * penalty. -/
def LpRegularizer._regularize_loss (r : LpRegularizer) (loss : ℚ) : ℚ :=
  let penalty : ℚ := r.optimizer.param_groups.foldl
    (fun acc group => group.params.foldl
      (fun acc2 param => acc2 + vectorNormPow r.p param) acc) 0
  r.lambda_ * penalty

/-- WeightDecayRegularizer._regularize_weight: the elementwise delta
-self.lambda_ * group["lr"] * weight.data. -/
def WeightDecayRegularizer._regularize_weight (lambda_ : ℚ) (weight : Param)
    (group : ParamGroup) : Param :=
  weight.map (fun w => -lambda_ * group.lr * w)

/-- C1: IntervalParamScaler.__call__ on scalar losses with a nonzero
training loss returns lambda times (1 + scaling_factor) when the
val/train ratio exceeds the upper bound, lambda times
(1 - scaling_factor) when the ratio is below the lower bound, and
lambda unchanged otherwise; moreover, for an interval with lower bound
at most the upper bound, a ratio equal to either bound leaves lambda
unchanged, both comparisons being strict. -/
theorem C1_interval_scaler_cases (s : IntervalParamScaler) (lambda_ : ℚ)
    (train_loss val_loss : LossType)
    (hv : val_loss.isScalar = true) (ht : train_loss.isScalar = true)
    (hnz : train_loss.value ≠ 0) :
    (s.call lambda_ train_loss val_loss =
      .ok (if s.tolerable_interval.2 < val_loss.value / train_loss.value then
             lambda_ * (1 + s.scaling_factor)
           else if val_loss.value / train_loss.value < s.tolerable_interval.1 then
             lambda_ * (1 - s.scaling_factor)
           else lambda_))
    ∧ (s.tolerable_interval.1 ≤ s.tolerable_interval.2 →
        (val_loss.value / train_loss.value = s.tolerable_interval.1 ∨
         val_loss.value / train_loss.value = s.tolerable_interval.2) →
        s.call lambda_ train_loss val_loss = .ok lambda_) := by
  constructor
  · unfold IntervalParamScaler.call
    rw [hv, ht]
    simp only [Bool.not_true, Bool.false_eq_true, if_false, if_neg hnz]
    split_ifs <;> rfl
  · intro hle hbd
    unfold IntervalParamScaler.call
    rw [hv, ht]
    simp only [Bool.not_true, Bool.false_eq_true, if_false, if_neg hnz]
    rcases hbd with h | h <;> rw [h] <;>
      rw [if_neg (by simp only [gt_iff_lt, not_lt]; linarith),
          if_neg (by simp only [not_lt]; linarith)]

/-- Witness for C1 at the spec's example configuration: interval
(9/10, 11/10), scaling factor 1/10, losses 2 and 3, so the ratio 3/2
exceeds the upper bound and lambda 1 is scaled to 11/10. -/
theorem C1_interval_scaler_cases_witness :
    IntervalParamScaler.call ⟨1/10, (9/10, 11/10)⟩ 1 (.float 2) (.float 3) =
      .ok (11/10) := by
  have h := (C1_interval_scaler_cases ⟨1/10, (9/10, 11/10)⟩ 1 (.float 2) (.float 3)
    rfl rfl (by norm_num [LossType.value])).1
  rw [h]
  norm_num [LossType.value]

/-- C5: LossRegularizer.regularize returns the combined loss (the loss
plus the penalty term), runs the backward pass on the combined value
and then records it under the regularized_loss key, leaving the
optimizer untouched. -/
theorem C5_loss_regularize_combined (regularizeLossFn : RegState → ℚ → ℚ)
    (st : RegState) (loss : ℚ) :
    (LossRegularizer.regularize regularizeLossFn st loss).1 =
      some (loss + regularizeLossFn st loss) ∧
    (LossRegularizer.regularize regularizeLossFn st loss).2.trace =
      st.trace ++
        [.backward (loss + regularizeLossFn st loss),
         .logRecord .regularized_loss (loss + regularizeLossFn st loss)] ∧
    (LossRegularizer.regularize regularizeLossFn st loss).2.optimizer = st.optimizer :=
  ⟨rfl, rfl, rfl⟩

/-- C7: IntervalParamScaler.__call__ raises its assertion exactly when
one of the losses is not scalar; the asserts run before the ratio is
computed, so on scalar losses the assertion never fires, whatever the
values. -/
theorem C7_nonscalar_assertion (s : IntervalParamScaler) (lambda_ : ℚ)
    (train_loss val_loss : LossType) :
    s.call lambda_ train_loss val_loss = .error .assertionError ↔
      ¬(train_loss.isScalar = true ∧ val_loss.isScalar = true) := by
  unfold IntervalParamScaler.call
  cases hv : val_loss.isScalar <;> cases ht : train_loss.isScalar <;> simp
  split_ifs <;> simp

/-- C8: neither family of regularize steps touches lambda_ or the
updater: the penalty application leaves them as they were, so lambda_
changes only through update_params. -/
theorem C8_lambda_preserved_by_regularize (regularizeLossFn : RegState → ℚ → ℚ)
    (regularizeWeightFn : ℚ → Param → ParamGroup → Param)
    (st : RegState) (loss : ℚ) :
    (LossRegularizer.regularize regularizeLossFn st loss).2.lambda_ = st.lambda_ ∧
    (WeightRegularizer.regularize regularizeWeightFn st loss).2.lambda_ = st.lambda_ ∧
    (LossRegularizer.regularize regularizeLossFn st loss).2.lambda_updater =
      st.lambda_updater ∧
    (WeightRegularizer.regularize regularizeWeightFn st loss).2.lambda_updater =
      st.lambda_updater :=
  ⟨rfl, rfl, rfl, rfl⟩

/-- C10: WeightRegularizer.regularize returns None for every input,
while the loss family returns the combined loss, despite the common
abstract signature. -/
theorem C10_weight_regularize_returns_none
    (regularizeWeightFn : ℚ → Param → ParamGroup → Param)
    (regularizeLossFn : RegState → ℚ → ℚ) (st : RegState) (loss : ℚ) :
    (WeightRegularizer.regularize regularizeWeightFn st loss).1 = none ∧
    (LossRegularizer.regularize regularizeLossFn st loss).1 =
      some (loss + regularizeLossFn st loss) :=
  ⟨rfl, rfl⟩

/-- C2: update_params with a non-constant strategy that returns v
invokes the strategy on (lambda_, train_loss, val_loss), assigns v to
lambda_ and appends exactly one regularization_lambda record carrying
v; with the ConstantParamScaler strategy the whole step is skipped and
the state, its trace included, is returned unchanged. -/
theorem C2_update_params_logging (st : RegState) (train_loss val_loss : LossType) :
    (st.lambda_updater.isConstant = false →
      ∀ v, st.lambda_updater.call st.lambda_ train_loss val_loss = .ok v →
        Regularizer.update_params st train_loss val_loss =
          (.ok (),
           { st with
               lambda_ := v
               trace := st.trace ++ [.logRecord .regularization_lambda v] })) ∧
    (st.lambda_updater.isConstant = true →
      Regularizer.update_params st train_loss val_loss = (.ok (), st)) := by
  constructor
  · intro hnc v hv
    unfold Regularizer.update_params
    rw [hnc, hv]
    simp
  · intro hc
    unfold Regularizer.update_params
    rw [hc]
    simp

/-- Witness for C2: a freshly constructed regularizer with an interval
scaler strategy, updated on losses 2 and 3, ends with lambda 11/10 and
a trace of exactly the construction record followed by one new record
of 11/10. -/
theorem C2_update_params_logging_witness :
    Regularizer.update_params
      (Regularizer.init ⟨[]⟩ 1 (.interval ⟨1/10, (9/10, 11/10)⟩))
      (.float 2) (.float 3) =
      (.ok (),
       { optimizer := ⟨[]⟩
         lambda_ := 11/10
         lambda_updater := .interval ⟨1/10, (9/10, 11/10)⟩
         trace := [.logRecord .regularization_lambda 1,
                   .logRecord .regularization_lambda (11/10)] }) := by
  have hcall : LambdaUpdater.call (.interval ⟨1/10, (9/10, 11/10)⟩) 1
      (.float 2) (.float 3) = .ok (11/10) := by
    simp only [LambdaUpdater.call]
    unfold IntervalParamScaler.call
    norm_num [LossType.isScalar, LossType.value]
  have h := (C2_update_params_logging
    (Regularizer.init ⟨[]⟩ 1 (.interval ⟨1/10, (9/10, 11/10)⟩))
    (.float 2) (.float 3)).1 rfl (11/10) hcall
  rw [h]
  rfl

/-- C9: when the strategy raises, update_params propagates the
exception and leaves the state untouched: lambda_ keeps its prior
value and no logger record is appended, because assignment and record
both come after the strategy returns. -/
theorem C9_update_params_atomic (st : RegState) (train_loss val_loss : LossType)
    (e : RegError) (hnc : st.lambda_updater.isConstant = false)
    (he : st.lambda_updater.call st.lambda_ train_loss val_loss = .error e) :
    Regularizer.update_params st train_loss val_loss = (.error e, st) := by
  unfold Regularizer.update_params
  rw [hnc, he]
  simp

/-- Witness for C9: an interval-scaler regularizer updated with a float
training loss of zero raises the division error and is returned with
state identical to the freshly constructed one. -/
theorem C9_update_params_atomic_witness :
    Regularizer.update_params
      (Regularizer.init ⟨[]⟩ 1 (.interval ⟨1/10, (9/10, 11/10)⟩))
      (.float 0) (.float 1) =
      (.error .zeroDivisionError,
       Regularizer.init ⟨[]⟩ 1 (.interval ⟨1/10, (9/10, 11/10)⟩)) := by
  have hcall : LambdaUpdater.call (.interval ⟨1/10, (9/10, 11/10)⟩) 1
      (.float 0) (.float 1) = .error .zeroDivisionError := by
    simp only [LambdaUpdater.call]
    unfold IntervalParamScaler.call
    norm_num [LossType.isScalar, LossType.value]
  exact C9_update_params_atomic _ _ _ _ rfl hcall

/-- Folding addition of f over a list starting from a equals a plus the
sum of the mapped list. -/
theorem foldl_add_eq_add_sum {α : Type} (f : α → ℚ) (l : List α) (a : ℚ) :
    l.foldl (fun acc x => acc + f x) a = a + (l.map f).sum := by
  induction l generalizing a with
  | nil => simp
  | cons x xs ih => simp [ih, add_assoc]

/-- C3: LpRegularizer._regularize_loss equals lambda_ times the sum,
over every parameter of every parameter group, of the p-th power of
the parameter's Lp vector norm, and the value does not depend on the
loss argument. -/
theorem C3_lp_penalty (r : LpRegularizer) (loss : ℚ) (hp : 1 ≤ r.p) :
    (LpRegularizer._regularize_loss r loss =
      r.lambda_ *
        ((r.optimizer.param_groups.map (fun group =>
          (group.params.map (fun param => vectorNormPow r.p param)).sum)).sum)) ∧
    (∀ loss1 loss2 : ℚ,
      LpRegularizer._regularize_loss r loss1 = LpRegularizer._regularize_loss r loss2) := by
  refine ⟨?_, fun _ _ => rfl⟩
  have hfold : ∀ (gs : List ParamGroup) (a : ℚ),
      gs.foldl (fun acc group => group.params.foldl
        (fun acc2 param => acc2 + vectorNormPow r.p param) acc) a =
      a + (gs.map (fun group => (group.params.map
        (fun param => vectorNormPow r.p param)).sum)).sum := by
    intro gs
    induction gs with
    | nil => intro a; simp
    | cons g gs ih =>
        intro a
        simp only [List.foldl_cons, List.map_cons, List.sum_cons]
        rw [foldl_add_eq_add_sum, ih]
        ring
  simp only [LpRegularizer._regularize_loss]
  rw [hfold]
  ring

/-- Witness for C3: p = 2 over one group holding the parameters [1, 2]
and [3] with lambda 1/2 gives the penalty (1 + 4 + 9) / 2 = 7,
whatever the loss. -/
theorem C3_lp_penalty_witness :
    LpRegularizer._regularize_loss
      ⟨⟨⟨[⟨1/10, [[1, 2], [3]]⟩]⟩, 1/2, .constant, []⟩, 2⟩ 5 = 7 ∧
    LpRegularizer._regularize_loss
      ⟨⟨⟨[⟨1/10, [[1, 2], [3]]⟩]⟩, 1/2, .constant, []⟩, 2⟩ 5 =
      LpRegularizer._regularize_loss
        ⟨⟨⟨[⟨1/10, [[1, 2], [3]]⟩]⟩, 1/2, .constant, []⟩, 2⟩ 0 := by
  have h := C3_lp_penalty
    ⟨⟨⟨[⟨1/10, [[1, 2], [3]]⟩]⟩, 1/2, .constant, []⟩, 2⟩ 5 (by norm_num)
  refine ⟨?_, h.2 5 0⟩
  rw [h.1]
  norm_num [vectorNormPow]

/-- C4 as stated fails on an all-zero weight: for the weight [0] and
lambda 1, two groups with the distinct learning rates 1/10 and 1/5
yield equal deltas, so distinct rates do not always yield distinct
deltas for equal weights. -/
theorem C4_equal_deltas_counterexample :
    (⟨1/10, []⟩ : ParamGroup).lr ≠ (⟨1/5, []⟩ : ParamGroup).lr ∧
    WeightDecayRegularizer._regularize_weight 1 [0] ⟨1/10, []⟩ =
      WeightDecayRegularizer._regularize_weight 1 [0] ⟨1/5, []⟩ := by
  constructor
  · norm_num
  · show [(-1 : ℚ) * (1/10) * 0] = [(-1 : ℚ) * (1/5) * 0]
    norm_num

/-- C4 amended: WeightDecayRegularizer._regularize_weight equals
-lambda_ * group.lr * weight elementwise, the rate being read from the
group passed with the weight; and whenever lambda_ is nonzero and the
weight has a nonzero entry, two groups with distinct learning rates
yield distinct deltas for that weight. -/
theorem C4_weight_decay_delta (lambda_ : ℚ) (weight : Param) (g1 g2 : ParamGroup) :
    (WeightDecayRegularizer._regularize_weight lambda_ weight g1 =
      weight.map (fun w => -lambda_ * g1.lr * w)) ∧
    (lambda_ ≠ 0 → g1.lr ≠ g2.lr → (∃ w ∈ weight, w ≠ 0) →
      WeightDecayRegularizer._regularize_weight lambda_ weight g1 ≠
        WeightDecayRegularizer._regularize_weight lambda_ weight g2) := by
  refine ⟨rfl, ?_⟩
  intro hl hlr hex heq
  obtain ⟨w, hw, hw0⟩ := hex
  unfold WeightDecayRegularizer._regularize_weight at heq
  rw [List.map_eq_map_iff] at heq
  have h2 : -lambda_ * g1.lr * w = -lambda_ * g2.lr * w := heq w hw
  have h3 := mul_right_cancel₀ hw0 h2
  exact hlr (mul_left_cancel₀ (neg_ne_zero.mpr hl) h3)

/-- Witness for the amended C4: lambda 1 and weight [2] with learning
rates 1/10 and 1/5 give the distinct deltas [-1/5] and [-2/5]. -/
theorem C4_weight_decay_delta_witness :
    WeightDecayRegularizer._regularize_weight 1 [2] ⟨1/10, []⟩ ≠
      WeightDecayRegularizer._regularize_weight 1 [2] ⟨1/5, []⟩ := by
  exact (C4_weight_decay_delta 1 [2] ⟨1/10, []⟩ ⟨1/5, []⟩).2 (by norm_num)
    (by norm_num) ⟨2, by simp, by norm_num⟩

/-- C6: WeightRegularizer.regularize appends the backward pass on the
original loss first and then one write per parameter of every group,
each adding the per-weight delta; the logger records of the trace are
exactly those already present, so the call records nothing. In the
concrete scenario of one group with learning rate 1/10 holding the
single parameter [2] and weight decay with lambda 1/2, the parameter
becomes [19/10], a delta of -1/2 * 1/10 * 2 = -1/10. -/
theorem C6_weight_regularize_order (regularizeWeightFn : ℚ → Param → ParamGroup → Param)
    (st : RegState) (loss : ℚ) :
    ((WeightRegularizer.regularize regularizeWeightFn st loss).2.optimizer.param_groups =
      st.optimizer.param_groups.map (fun group =>
        { group with
            params := group.params.map (fun param =>
              tensorAdd param (regularizeWeightFn st.lambda_ param group)) })) ∧
    ((WeightRegularizer.regularize regularizeWeightFn st loss).2.trace =
      st.trace ++ [.backward loss] ++
        (st.optimizer.param_groups.map (fun group =>
          group.params.map (fun param =>
            Event.paramWrite param
              (tensorAdd param (regularizeWeightFn st.lambda_ param group))))).flatten) ∧
    (((WeightRegularizer.regularize regularizeWeightFn st loss).2.trace.filter
        (fun ev => ev.isLogRecord)) =
      st.trace.filter (fun ev => ev.isLogRecord)) ∧
    ((WeightRegularizer.regularize WeightDecayRegularizer._regularize_weight
        ⟨⟨[⟨1/10, [[2]]⟩]⟩, 1/2, .constant, []⟩ 0).2.optimizer.param_groups =
      [⟨1/10, [[19/10]]⟩]) := by
  refine ⟨rfl, rfl, ?_, ?_⟩
  · show ((st.trace ++ [Event.backward loss] ++
        (st.optimizer.param_groups.map (fun group =>
          group.params.map (fun param =>
            Event.paramWrite param
              (tensorAdd param (regularizeWeightFn st.lambda_ param group))))).flatten).filter
        (fun ev => ev.isLogRecord)) =
      st.trace.filter (fun ev => ev.isLogRecord)
    rw [List.filter_append, List.filter_append]
    have h1 : ([Event.backward loss].filter (fun ev => ev.isLogRecord)) = [] := rfl
    have h2 : (((st.optimizer.param_groups.map (fun group =>
        group.params.map (fun param =>
          Event.paramWrite param
            (tensorAdd param (regularizeWeightFn st.lambda_ param group))))).flatten).filter
          (fun ev => ev.isLogRecord)) = [] := by
      rw [List.filter_eq_nil_iff]
      intro ev hev
      rw [List.mem_flatten] at hev
      obtain ⟨l, hl, hevl⟩ := hev
      rw [List.mem_map] at hl
      obtain ⟨g, hg, rfl⟩ := hl
      obtain ⟨p, hp, rfl⟩ := List.mem_map.mp hevl
      simp [Event.isLogRecord]
    rw [h1, h2]
    simp
  · show [(⟨1/10, [tensorAdd [2]
        (WeightDecayRegularizer._regularize_weight (1/2) [2] ⟨1/10, [[2]]⟩)]⟩ : ParamGroup)] =
      [⟨1/10, [[19/10]]⟩]
    norm_num [tensorAdd, WeightDecayRegularizer._regularize_weight]

end Imitation
